import Mathlib

/-!
Verification of the steel-cookbook computer-use starters.

The development shallowly embeds the pure logic of two source files:

* `examples/steel-claude-computer-use-python-starter/main.py`
  (coordinate clamping and validation, the action dispatcher
  `execute_computer_action`, the `chunks` helper, the agent loop of
  `ClaudeAgent.execute_task` with its `is_task_complete` and
  `detect_repetition` checks), and
* `examples/steel-gemini-computer-use-python-starter/main.py`
  (`_denormalize_x`/`_denormalize_y`, `_normalize_key`, key combos).

Conventions of the embedding:

* Python `int` is `Int` (or `Nat` for values that are non-negative by
  construction, such as viewport dimensions); Python float arithmetic on
  the small numbers appearing here is modelled exactly over `Rat`, with
  `int(...)` as truncation toward zero.
* A Python function that can raise `ValueError` returns
  `Except String` with the message of the raised error.
* Calls into external collaborators (Playwright page/mouse/keyboard,
  the Steel session API) are modelled as emitted `Event` values; the
  screenshot every branch returns is the `Event.screenshotTaken` marker.
* Printed warnings are side effects without influence on control flow
  and are not modelled.
-/

set_option maxRecDepth 8000

deriving instance DecidableEq for Except

namespace Cookbook

/-! ## Basic Python string helpers -/

/-- Character class of the Python regex `\s` and of `str.split()`
(ASCII range): space, tab, newline, carriage return, vertical tab,
form feed. -/
def pyIsSpace (c : Char) : Bool :=
  c = ' ' || c = '\t' || c = '\n' || c = '\r' || c = '\x0b' || c = '\x0c'

/-- Python `str.lower()` (ASCII behaviour suffices for the inputs of
this program). -/
def lowerStr (s : String) : String :=
  String.mk (s.toList.map Char.toLower)

/-- Python `str.upper()` (ASCII behaviour). -/
def upperStr (s : String) : String :=
  String.mk (s.toList.map Char.toUpper)

/-- Python `needle in haystack` on strings: some suffix of the haystack
starts with the needle. -/
def strContains (hay needle : String) : Bool :=
  hay.toList.tails.any (fun t => needle.toList.isPrefixOf t)

/-- Split a character list at every character satisfying `p`, keeping
empty pieces (the behaviour of splitting on a single separator). -/
def pySplitPred (p : Char → Bool) : List Char → List (List Char)
  | [] => [[]]
  | c :: cs =>
    match pySplitPred p cs with
    | [] => [[]]
    | h :: t => if p c then [] :: h :: t else (c :: h) :: t

/-- Python `str.split()` with no argument: split on whitespace and
drop empty pieces (so whitespace runs and edges produce nothing). -/
def pySplitWs (s : String) : List String :=
  ((pySplitPred (fun c => pyIsSpace c) s.toList).map (fun l => String.mk l)).filter
    (fun w => w ≠ "")

/-- Python `s.split("+")`: empty pieces are kept. -/
def pySplitPlus (s : String) : List String :=
  (pySplitPred (fun c => c = '+') s.toList).map (fun l => String.mk l)

/-- Python `str.strip()` with no argument: drop leading and trailing
whitespace. -/
def pyStrip (s : String) : String :=
  String.mk (((s.toList.dropWhile pyIsSpace).reverse.dropWhile pyIsSpace).reverse)

/-! ## Coordinate clamping (Claude starter)

Source: `SteelBrowser.clamp_coordinates` and
`SteelBrowser.validate_and_get_coordinates`,
`examples/steel-claude-computer-use-python-starter/main.py` lines 352-369. -/

/-- `SteelBrowser.clamp_coordinates`: clamp into `[0, width-1]` and
`[0, height-1]` (the correction is printed as a warning, which we do
not model). -/
def clamp_coordinates (width height : Nat) (x y : Int) : Int × Int :=
  (max 0 (min x ((width : Int) - 1)), max 0 (min y ((height : Int) - 1)))

/-- `SteelBrowser.validate_and_get_coordinates`: reject a coordinate
that is not a pair, or whose entries are negative, with a `ValueError`;
otherwise clamp.  (The `isinstance(i, int)` part of the check is
carried by the type of the embedding.) -/
def validate_and_get_coordinates (width height : Nat) (coordinate : List Int) :
    Except String (Int × Int) :=
  if coordinate.length ≠ 2 then
    Except.error "coordinate must be a tuple or list of length 2"
  else if ¬ (coordinate.all (fun i => 0 ≤ i)) then
    Except.error "coordinate must be a tuple or list of non-negative ints"
  else
    Except.ok (clamp_coordinates width height (coordinate.getD 0 0) (coordinate.getD 1 0))

theorem clamp_coordinates_mem (width height : Nat) (x y : Int)
    (hw : 1 ≤ width) (hh : 1 ≤ height) :
    0 ≤ (clamp_coordinates width height x y).1 ∧
      (clamp_coordinates width height x y).1 ≤ (width : Int) - 1 ∧
      0 ≤ (clamp_coordinates width height x y).2 ∧
      (clamp_coordinates width height x y).2 ≤ (height : Int) - 1 := by
  have hw1 : (1 : Int) ≤ (width : Int) := by exact_mod_cast hw
  have hh1 : (1 : Int) ≤ (height : Int) := by exact_mod_cast hh
  simp only [clamp_coordinates]
  constructor
  · exact le_max_left 0 _
  constructor
  · exact max_le (by omega) (min_le_right _ _)
  constructor
  · exact le_max_left 0 _
  · exact max_le (by omega) (min_le_right _ _)

theorem validate_ok_bounds (width height : Nat) (c : List Int) (x y : Int)
    (hw : 1 ≤ width) (hh : 1 ≤ height)
    (h : validate_and_get_coordinates width height c = Except.ok (x, y)) :
    0 ≤ x ∧ x ≤ (width : Int) - 1 ∧ 0 ≤ y ∧ y ≤ (height : Int) - 1 := by
  unfold validate_and_get_coordinates at h
  split at h
  · exact absurd h (by simp)
  · split at h
    · exact absurd h (by simp)
    · have := clamp_coordinates_mem width height (c.getD 0 0) (c.getD 1 0) hw hh
      injection h with h
      rw [show x = (x, y).1 from rfl, show y = (x, y).2 from rfl, ← h]
      exact ⟨this.1, this.2.1, this.2.2.1, this.2.2.2⟩

/-! ## Key name tables (Claude starter)

Source: `CUA_KEY_TO_PLAYWRIGHT_KEY`,
`examples/steel-claude-computer-use-python-starter/main.py` lines
117-177 (all keys of the dict are distinct, so an association list
with first-match lookup is faithful). -/

def CUA_KEY_TO_PLAYWRIGHT_KEY : List (String × String) :=
  [("/", "Divide"), ("\\", "Backslash"), ("alt", "Alt"),
   ("arrowdown", "ArrowDown"), ("arrowleft", "ArrowLeft"),
   ("arrowright", "ArrowRight"), ("arrowup", "ArrowUp"),
   ("backspace", "Backspace"), ("capslock", "CapsLock"),
   ("cmd", "Meta"), ("ctrl", "Control"), ("delete", "Delete"),
   ("end", "End"), ("enter", "Enter"), ("esc", "Escape"),
   ("home", "Home"), ("insert", "Insert"), ("option", "Alt"),
   ("pagedown", "PageDown"), ("pageup", "PageUp"), ("shift", "Shift"),
   ("space", " "), ("super", "Meta"), ("tab", "Tab"), ("win", "Meta"),
   ("Return", "Enter"), ("KP_Enter", "Enter"), ("Escape", "Escape"),
   ("BackSpace", "Backspace"), ("Delete", "Delete"), ("Tab", "Tab"),
   ("ISO_Left_Tab", "Shift+Tab"), ("Up", "ArrowUp"),
   ("Down", "ArrowDown"), ("Left", "ArrowLeft"), ("Right", "ArrowRight"),
   ("Page_Up", "PageUp"), ("Page_Down", "PageDown"), ("Home", "Home"),
   ("End", "End"), ("Insert", "Insert"),
   ("F1", "F1"), ("F2", "F2"), ("F3", "F3"), ("F4", "F4"),
   ("F5", "F5"), ("F6", "F6"), ("F7", "F7"), ("F8", "F8"),
   ("F9", "F9"), ("F10", "F10"), ("F11", "F11"), ("F12", "F12"),
   ("Shift_L", "Shift"), ("Shift_R", "Shift"),
   ("Control_L", "Control"), ("Control_R", "Control"),
   ("Alt_L", "Alt"), ("Alt_R", "Alt"),
   ("Meta_L", "Meta"), ("Meta_R", "Meta"),
   ("Super_L", "Meta"), ("Super_R", "Meta"),
   ("minus", "-"), ("equal", "="), ("bracketleft", "["),
   ("bracketright", "]"), ("semicolon", ";"), ("apostrophe", "\x27"),
   ("grave", "\x60"), ("comma", ","), ("period", "."), ("slash", "/")]

/-- The pattern `if k in CUA_KEY_TO_PLAYWRIGHT_KEY: k = CUA_KEY_TO_PLAYWRIGHT_KEY[k]`
used throughout the Claude starter: look the key up, keep it unchanged
when absent. -/
def cuaLookup (k : String) : String :=
  match CUA_KEY_TO_PLAYWRIGHT_KEY.find? (fun e => e.1 = k) with
  | some e => e.2
  | none => k

/-- Modifier normalization of the `key` action branch of
`SteelBrowser.execute_computer_action` (main.py lines 522-532). -/
def mapModifier (m : String) : String :=
  let lm := lowerStr m
  if lm = "ctrl" ∨ lm = "control" then "Control"
  else if lm = "shift" then "Shift"
  else if lm = "alt" ∨ lm = "option" then "Alt"
  else if lm = "cmd" ∨ lm = "meta" ∨ lm = "super" then "Meta"
  else m

/-- The `key` action branch of `SteelBrowser.execute_computer_action`
(main.py lines 513-542): split a combo on `+`, normalize the modifiers,
map the main key through the key table, and rejoin; a plain key is
mapped through the key table alone. -/
def claudePressKeyString (text : String) : String :=
  if text.toList.contains '+' then
    let key_parts := pySplitPlus text
    let modifier_keys := key_parts.dropLast
    let main_key := key_parts.getLastD ""
    String.intercalate "+" (modifier_keys.map mapModifier ++ [cuaLookup main_key])
  else
    cuaLookup text

/-! ## Key name normalization (Gemini starter)

Source: `Agent._normalize_key`, `Agent._normalize_keys` and the
`key_combination` branch of `Agent._execute_computer_action`,
`examples/steel-gemini-computer-use-python-starter/main.py` lines
100-142 and 395-406. -/

def geminiKeySynonyms : List (String × String) :=
  [("ENTER", "Enter"), ("RETURN", "Enter"), ("ESC", "Escape"),
   ("ESCAPE", "Escape"), ("TAB", "Tab"), ("BACKSPACE", "Backspace"),
   ("DELETE", "Delete"), ("SPACE", "Space"), ("CTRL", "Control"),
   ("CONTROL", "Control"), ("ALT", "Alt"), ("SHIFT", "Shift"),
   ("META", "Meta"), ("CMD", "Meta"), ("COMMAND", "Meta"),
   ("UP", "ArrowUp"), ("DOWN", "ArrowDown"), ("LEFT", "ArrowLeft"),
   ("RIGHT", "ArrowRight"), ("ARROWUP", "ArrowUp"),
   ("ARROWDOWN", "ArrowDown"), ("ARROWLEFT", "ArrowLeft"),
   ("ARROWRIGHT", "ArrowRight"), ("HOME", "Home"), ("END", "End"),
   ("PAGEUP", "PageUp"), ("PAGEDOWN", "PageDown"), ("INSERT", "Insert")]

/-- `Agent._normalize_key`: strip, look the uppercased name up in the
synonym table, recognize function keys by pattern, and otherwise return
the stripped input unchanged. -/
def normalizeKey (key : String) : String :=
  if key = "" then key
  else
    let k := pyStrip key
    let upper := upperStr k
    match geminiKeySynonyms.find? (fun e => e.1 = upper) with
    | some e => e.2
    | none =>
      if upper.toList.headD ' ' = 'F' ∧ (upper.toList.tail ≠ [] ∧
          (upper.toList.tail).all (fun c => c.isDigit)) then
        String.mk ('F' :: upper.toList.tail)
      else k

/-- `Agent._normalize_keys`. -/
def normalizeKeys (keys : List String) : List String :=
  keys.map normalizeKey

/-- The `key_combination` branch of `Agent._execute_computer_action`
(main.py lines 395-398): split the combo string on `+`, strip each
part, normalize each part; the resulting list is passed to the
`press_key` command in order. -/
def geminiKeyCombination (keys_str : String) : List String :=
  normalizeKeys ((pySplitPlus keys_str).map (fun k => pyStrip k))

/-! ## Text chunking (Claude starter)

Source: `chunks` and `TYPING_GROUP_SIZE`,
`examples/steel-claude-computer-use-python-starter/main.py` lines
82-83 and 180-181. -/

def TYPING_GROUP_SIZE : Nat := 50

/-- List-level body of the Python comprehension
`[s[i : i + chunk_size] for i in range(0, len(s), chunk_size)]`:
`range(0, n, cs)` enumerates the `ceil(n / cs)` multiples of `cs`
below `n`, and `s[i : i + cs]` is take-after-drop. -/
def chunksList (chunk_size : Nat) (l : List Char) : List (List Char) :=
  (List.range ((l.length + chunk_size - 1) / chunk_size)).map
    (fun i => (l.drop (i * chunk_size)).take chunk_size)

/-- `chunks(s, chunk_size)` (meaningful for a positive chunk size; the
Python raises on step zero). -/
def chunks (s : String) (chunk_size : Nat) : List String :=
  (chunksList chunk_size s.toList).map (fun l => String.mk l)

theorem chunksList_nil (chunk_size : Nat) : chunksList chunk_size [] = [] := by
  rcases Nat.eq_zero_or_pos chunk_size with h | h
  · subst h
    rfl
  · simp only [chunksList, List.length_nil]
    rw [show (0 + chunk_size - 1) / chunk_size = 0 from
      Nat.div_eq_of_lt (by omega)]
    rfl

theorem chunksList_cons (chunk_size : Nat) (hcs : 0 < chunk_size)
    (l : List Char) (hl : l ≠ []) :
    chunksList chunk_size l =
      l.take chunk_size :: chunksList chunk_size (l.drop chunk_size) := by
  have hn : 0 < l.length := List.length_pos.mpr hl
  have hcount : (l.length + chunk_size - 1) / chunk_size =
      ((l.length - chunk_size) + chunk_size - 1) / chunk_size + 1 := by
    rcases Nat.le_total chunk_size l.length with hle | hle
    · have h1 : l.length + chunk_size - 1 = (l.length - 1) + chunk_size := by omega
      have h2 : (l.length - chunk_size) + chunk_size - 1 = l.length - 1 := by omega
      rw [h1, h2, Nat.add_div_right _ hcs]
    · have h1 : l.length - chunk_size = 0 := by omega
      have e1 : 1 * chunk_size ≤ l.length + chunk_size - 1 := by
        rw [one_mul]
        omega
      have e2 : l.length + chunk_size - 1 < (1 + 1) * chunk_size := by
        have ht : (1 + 1) * chunk_size = chunk_size + chunk_size := by ring
        rw [ht]
        omega
      rw [h1, Nat.div_eq_of_lt_le e1 e2]
      rw [show (0 + chunk_size - 1) / chunk_size = 0 from
        Nat.div_eq_of_lt (by omega)]
  simp only [chunksList, List.length_drop, hcount, List.range_succ_eq_map,
    List.map_cons, List.map_map, Nat.zero_mul, List.drop_zero]
  congr 1
  apply List.map_congr_left
  intro i _
  simp only [Function.comp_apply, List.drop_drop, Nat.succ_eq_add_one]
  congr 2
  ring

theorem chunksList_flatten (chunk_size : Nat) (hcs : 0 < chunk_size)
    (l : List Char) : (chunksList chunk_size l).flatten = l := by
  by_cases hl : l = []
  · rw [hl, chunksList_nil]
    rfl
  · rw [chunksList_cons chunk_size hcs l hl]
    have ih := chunksList_flatten chunk_size hcs (l.drop chunk_size)
    simp only [List.flatten_cons, ih, List.take_append_drop]
termination_by l.length
decreasing_by
  simp only [List.length_drop]
  have : 0 < l.length := List.length_pos.mpr hl
  omega

theorem chunksList_short (chunk_size : Nat) (l : List Char) :
    ∀ c ∈ chunksList chunk_size l, c.length ≤ chunk_size := by
  intro c hc
  simp only [chunksList, List.mem_map, List.mem_range] at hc
  obtain ⟨i, _, rfl⟩ := hc
  exact List.length_take_le _ _

/-! ## Similarity and repetition detection (Claude starter)

Source: the local functions `similarity` and `detect_repetition` of
`ClaudeAgent.execute_task`,
`examples/steel-claude-computer-use-python-starter/main.py` lines
730-741.  Python float division of the two small word counts is
modelled exactly over `Rat` (the comparison against `0.8` is far from
any representation boundary for the word counts arising here). -/

/-- `similarity(str1, str2)`: the number of words of the first string
that also occur in the second, divided by the larger word count.
(The Python raises `ZeroDivisionError` when both strings have no
words; that degenerate case is outside every claim and is mapped to
`0` by the `Rat` division.) -/
def similarity (str1 str2 : String) : ℚ :=
  let words1 := pySplitWs (lowerStr str1)
  let words2 := pySplitWs (lowerStr str2)
  let common_words := words1.filter (fun word => words2.contains word)
  (common_words.length : ℚ) / (max words1.length words2.length : ℚ)

/-- `detect_repetition(new_message)` with the captured
`last_assistant_messages` made explicit: false with fewer than 2
stored messages, else true when the new message is more than `0.8`
similar to ANY stored message. -/
def detect_repetition (last_assistant_messages : List String)
    (new_message : String) : Bool :=
  if last_assistant_messages.length < 2 then false
  else last_assistant_messages.any
    (fun prev_message => decide ((4 : ℚ) / 5 < similarity new_message prev_message))

/-! ## The completion heuristics (Claude starter)

Source: the local function `is_task_complete` of
`ClaudeAgent.execute_task`,
`examples/steel-claude-computer-use-python-starter/main.py` lines
696-728.  The twelve regular expressions used there are built from
literal words, `\s+`, and alternations of literal words (the single
`results?` occurs at the end of its pattern, so it matches exactly
when `result` does); they are embedded by distributing each
alternation into a list of alternation-free patterns, which preserves
`re.search` semantics. -/

/-- One token of an alternation-free pattern: a literal word or `\s+`. -/
inductive Tok where
  | lit (w : String)
  | ws
deriving DecidableEq

/-- Fuel-driven matcher for a pattern anchored at the start of `s`
(case sensitivity is handled by lowercasing both sides beforehand,
mirroring `re.IGNORECASE`).  `\s+` consumes one whitespace character
and then nondeterministically continues or keeps consuming. -/
def matchToksFuel : Nat → List Tok → List Char → Bool
  | 0, _, _ => false
  | _ + 1, [], _ => true
  | fuel + 1, Tok.lit w :: rest, s =>
      w.toList.isPrefixOf s && matchToksFuel fuel rest (s.drop w.toList.length)
  | _ + 1, Tok.ws :: _, [] => false
  | fuel + 1, Tok.ws :: rest, c :: cs =>
      pyIsSpace c && (matchToksFuel fuel rest cs || matchToksFuel fuel (Tok.ws :: rest) cs)

/-- Anchored match with enough fuel for any derivation. -/
def matchToks (p : List Tok) (s : List Char) : Bool :=
  matchToksFuel (s.length + p.length + 1) p s

/-- `re.search`: the pattern matches at some position of the string. -/
def searchPat (p : List Tok) (s : List Char) : Bool :=
  s.tails.any (fun t => matchToks p t)

/-- `completion_patterns` (main.py lines 702-709), with alternations
distributed. -/
def completion_patterns : List (List Tok) :=
  [[Tok.lit "task", Tok.ws, Tok.lit "completed"],
   [Tok.lit "task", Tok.ws, Tok.lit "finished"],
   [Tok.lit "task", Tok.ws, Tok.lit "done"],
   [Tok.lit "task", Tok.ws, Tok.lit "accomplished"],
   [Tok.lit "successfully", Tok.ws, Tok.lit "completed"],
   [Tok.lit "successfully", Tok.ws, Tok.lit "finished"],
   [Tok.lit "successfully", Tok.ws, Tok.lit "found"],
   [Tok.lit "successfully", Tok.ws, Tok.lit "gathered"],
   [Tok.lit "here", Tok.ws, Tok.lit "is", Tok.ws, Tok.lit "the", Tok.ws, Tok.lit "result"],
   [Tok.lit "here", Tok.ws, Tok.lit "is", Tok.ws, Tok.lit "the", Tok.ws, Tok.lit "information"],
   [Tok.lit "here", Tok.ws, Tok.lit "is", Tok.ws, Tok.lit "the", Tok.ws, Tok.lit "summary"],
   [Tok.lit "here", Tok.ws, Tok.lit "are", Tok.ws, Tok.lit "the", Tok.ws, Tok.lit "result"],
   [Tok.lit "here", Tok.ws, Tok.lit "are", Tok.ws, Tok.lit "the", Tok.ws, Tok.lit "information"],
   [Tok.lit "here", Tok.ws, Tok.lit "are", Tok.ws, Tok.lit "the", Tok.ws, Tok.lit "summary"],
   [Tok.lit "to", Tok.ws, Tok.lit "summarize"],
   [Tok.lit "in", Tok.ws, Tok.lit "conclusion"],
   [Tok.lit "final", Tok.ws, Tok.lit "answer"],
   [Tok.lit "final", Tok.ws, Tok.lit "result"],
   [Tok.lit "final", Tok.ws, Tok.lit "summary"]]

/-- `failure_patterns` (main.py lines 711-718), with alternations
distributed. -/
def failure_patterns : List (List Tok) :=
  [[Tok.lit "cannot", Tok.ws, Tok.lit "complete"],
   [Tok.lit "cannot", Tok.ws, Tok.lit "proceed"],
   [Tok.lit "cannot", Tok.ws, Tok.lit "access"],
   [Tok.lit "cannot", Tok.ws, Tok.lit "continue"],
   [Tok.lit "unable", Tok.ws, Tok.lit "to", Tok.ws, Tok.lit "complete"],
   [Tok.lit "unable", Tok.ws, Tok.lit "to", Tok.ws, Tok.lit "access"],
   [Tok.lit "unable", Tok.ws, Tok.lit "to", Tok.ws, Tok.lit "find"],
   [Tok.lit "unable", Tok.ws, Tok.lit "to", Tok.ws, Tok.lit "proceed"],
   [Tok.lit "blocked", Tok.ws, Tok.lit "by", Tok.ws, Tok.lit "captcha"],
   [Tok.lit "blocked", Tok.ws, Tok.lit "by", Tok.ws, Tok.lit "security"],
   [Tok.lit "blocked", Tok.ws, Tok.lit "by", Tok.ws, Tok.lit "authentication"],
   [Tok.lit "giving", Tok.ws, Tok.lit "up"],
   [Tok.lit "no", Tok.ws, Tok.lit "longer", Tok.ws, Tok.lit "able"],
   [Tok.lit "have", Tok.ws, Tok.lit "tried", Tok.ws, Tok.lit "multiple",
    Tok.ws, Tok.lit "approaches"]]

def markerCompleted : String := "TASK_COMPLETED:"
def markerFailed : String := "TASK_FAILED:"
def markerAbandoned : String := "TASK_ABANDONED:"

/-- `is_task_complete(content)`: `some reason` is Python returning
`completed=True` with that `reason`, `none` is `completed=False`.  The
explicit markers are checked before any heuristic pattern. -/
def is_task_complete (content : String) : Option String :=
  if strContains content markerCompleted then some "explicit_completion"
  else if strContains content markerFailed || strContains content markerAbandoned then
    some "explicit_failure"
  else
    let lc := (lowerStr content).toList
    if completion_patterns.any (fun p => searchPat p lc) then some "natural_completion"
    else if failure_patterns.any (fun p => searchPat p lc) then some "natural_failure"
    else none

/-! ## The action dispatcher (Claude starter)

Source: `SteelBrowser.execute_computer_action`,
`examples/steel-claude-computer-use-python-starter/main.py` lines
371-558.  Calls into the Playwright page are recorded as `Event`
values in call order; the screenshot returned by every successful
branch is the trailing `Event.screenshotTaken`.  The
`_last_mouse_position` attribute is threaded explicitly: the function
takes the position before the call and returns the position after it.
A raised `ValueError` is `Except.error` with its message (the state is
unchanged by an error, since every Python assignment to
`_last_mouse_position` happens after all raises of its branch). -/

def TYPING_DELAY_MS : Nat := 12

/-- One primitive command against the Playwright page. -/
inductive Event where
  | mouseDown
  | mouseUp
  | mouseMove (x y : Int)
  | click (x y : Int) (button : String) (clickCount : Nat)
  | wheel (delta_x delta_y : Int)
  | keyDown (k : String)
  | keyUp (k : String)
  | keyPress (k : String)
  | typeChunk (s : String) (delayMs : Nat)
  | sleep (seconds : ℚ)
  | screenshotTaken
deriving DecidableEq

/-- The keyword arguments of `execute_computer_action`; an absent
argument is `none` (Python `None`).  `duration` is a number in the
Python (`int` or `float`); it is modelled over `Rat`. -/
structure Args where
  text : Option String := none
  coordinate : Option (List Int) := none
  scroll_direction : Option String := none
  scroll_amount : Option Int := none
  duration : Option ℚ := none
  key : Option String := none
deriving DecidableEq

/-- `SteelBrowser.execute_computer_action`: dispatch one action,
returning the emitted page commands and the new
`_last_mouse_position`, or the message of the raised `ValueError`. -/
def execute_computer_action (width height : Nat)
    (last_mouse_position : Option (Int × Int))
    (action : String) (a : Args) :
    Except String (List Event × Option (Int × Int)) :=
  if action = "left_mouse_down" ∨ action = "left_mouse_up" then
    if a.coordinate ≠ none then
      Except.error "coordinate is not accepted for this action"
    else if action = "left_mouse_down" then
      Except.ok ([Event.mouseDown, Event.screenshotTaken], last_mouse_position)
    else
      Except.ok ([Event.mouseUp, Event.screenshotTaken], last_mouse_position)
  else if action = "scroll" then
    match a.scroll_direction with
    | none => Except.error "scroll_direction must be up, down, left, or right"
    | some dir =>
      if ¬ (dir = "up" ∨ dir = "down" ∨ dir = "left" ∨ dir = "right") then
        Except.error "scroll_direction must be up, down, left, or right"
      else
        match a.scroll_amount with
        | none => Except.error "scroll_amount must be a non-negative int"
        | some amt =>
          if amt < 0 then Except.error "scroll_amount must be a non-negative int"
          else
            let modEvents : List Event × List Event :=
              match a.text with
              | some t =>
                if t ≠ "" then
                  ([Event.keyDown (cuaLookup t)], [Event.keyUp (cuaLookup t)])
                else ([], [])
              | none => ([], [])
            let delta : Int × Int :=
              if dir = "down" then (0, 100 * amt)
              else if dir = "up" then (0, -(100 * amt))
              else if dir = "right" then (100 * amt, 0)
              else (-(100 * amt), 0)
            let rest : List Event :=
              modEvents.1 ++ [Event.wheel delta.1 delta.2] ++ modEvents.2 ++
                [Event.screenshotTaken]
            match a.coordinate with
            | none => Except.ok (rest, last_mouse_position)
            | some c =>
              match validate_and_get_coordinates width height c with
              | Except.error e => Except.error e
              | Except.ok (x, y) =>
                Except.ok (Event.mouseMove x y :: rest, some (x, y))
  else if action = "hold_key" ∨ action = "wait" then
    match a.duration with
    | none => Except.error "duration must be a number"
    | some d =>
      if d < 0 then Except.error "duration must be non-negative"
      else if 100 < d then Except.error "duration is too long"
      else if action = "hold_key" then
        match a.text with
        | none => Except.error "text is required for hold_key"
        | some t =>
          Except.ok
            ([Event.keyDown (cuaLookup t), Event.sleep d,
              Event.keyUp (cuaLookup t), Event.screenshotTaken],
              last_mouse_position)
      else
        Except.ok ([Event.sleep d, Event.screenshotTaken], last_mouse_position)
  else if action = "left_click" ∨ action = "right_click" ∨ action = "double_click" ∨
      action = "triple_click" ∨ action = "middle_click" then
    if a.text ≠ none then
      Except.error "text is not accepted for this action"
    else
      let modEvents : List Event × List Event :=
        match a.key with
        | some k =>
          if k ≠ "" then
            ([Event.keyDown (cuaLookup k)], [Event.keyUp (cuaLookup k)])
          else ([], [])
        | none => ([], [])
      let clickEvents : Int → Int → List Event := fun click_x click_y =>
        if action = "left_click" then [Event.click click_x click_y "left" 1]
        else if action = "right_click" then [Event.click click_x click_y "right" 1]
        else if action = "double_click" then [Event.click click_x click_y "left" 2]
        else if action = "triple_click" then
          [Event.click click_x click_y "left" 1,
           Event.click click_x click_y "left" 1,
           Event.click click_x click_y "left" 1]
        else [Event.click click_x click_y "middle" 1]
      match a.coordinate with
      | some c =>
        match validate_and_get_coordinates width height c with
        | Except.error e => Except.error e
        | Except.ok (x, y) =>
          Except.ok
            (Event.mouseMove x y :: (modEvents.1 ++ clickEvents x y ++
              modEvents.2 ++ [Event.screenshotTaken]), some (x, y))
      | none =>
        match last_mouse_position with
        | some p =>
          Except.ok
            (modEvents.1 ++ clickEvents p.1 p.2 ++ modEvents.2 ++
              [Event.screenshotTaken], last_mouse_position)
        | none =>
          Except.ok
            (modEvents.1 ++ clickEvents ((width / 2 : Nat)) ((height / 2 : Nat)) ++
              modEvents.2 ++ [Event.screenshotTaken], last_mouse_position)
  else if action = "mouse_move" ∨ action = "left_click_drag" then
    if a.coordinate = none then
      Except.error "coordinate is required for this action"
    else if a.text ≠ none then
      Except.error "text is not accepted for this action"
    else
      match validate_and_get_coordinates width height (a.coordinate.getD []) with
      | Except.error e => Except.error e
      | Except.ok (x, y) =>
        if action = "mouse_move" then
          Except.ok ([Event.mouseMove x y, Event.screenshotTaken], some (x, y))
        else
          Except.ok
            ([Event.mouseDown, Event.mouseMove x y, Event.mouseUp,
              Event.screenshotTaken], some (x, y))
  else if action = "key" ∨ action = "type" then
    match a.text with
    | none => Except.error "text is required for this action"
    | some t =>
      if a.coordinate ≠ none then
        Except.error "coordinate is not accepted for this action"
      else if action = "key" then
        Except.ok ([Event.keyPress (claudePressKeyString t), Event.screenshotTaken],
          last_mouse_position)
      else
        Except.ok
          ((chunks t TYPING_GROUP_SIZE).flatMap
              (fun chunk => [Event.typeChunk chunk TYPING_DELAY_MS,
                Event.sleep ((1 : ℚ) / 100)]) ++ [Event.screenshotTaken],
            last_mouse_position)
  else if action = "screenshot" ∨ action = "cursor_position" then
    if a.text ≠ none then
      Except.error "text is not accepted for this action"
    else if a.coordinate ≠ none then
      Except.error "coordinate is not accepted for this action"
    else
      Except.ok ([Event.screenshotTaken], last_mouse_position)
  else
    Except.error "Invalid action"

/-- Fold a sequence of `execute_computer_action` calls over the
`_last_mouse_position` state; an error leaves the state unchanged
(the exception propagates out of the method before any assignment of
its branch). -/
def runActions (width height : Nat) (calls : List (String × Args))
    (lp : Option (Int × Int)) : Option (Int × Int) :=
  calls.foldl
    (fun p c =>
      match execute_computer_action width height p c.1 c.2 with
      | Except.ok r => r.2
      | Except.error _ => p)
    lp

/-! ## Coordinate denormalization (Gemini starter)

Source: `MAX_COORDINATE`, `Agent._denormalize_x`, `Agent._denormalize_y`
and the `click_at` branch of `Agent._execute_computer_action`,
`examples/steel-gemini-computer-use-python-starter/main.py` lines 35,
91-95 and 180-191.  Python `x / MAX_COORDINATE * self.viewport_width`
is float arithmetic; over the input range `0..1000` and the viewport
sizes of this program it is modelled exactly over `Rat`, and `int()`
is truncation toward zero. -/

def MAX_COORDINATE : Nat := 1000

/-- Python `int()` on a rational: truncation toward zero. -/
def pyInt (q : ℚ) : Int :=
  if q < 0 then -(Int.floor (-q)) else Int.floor q

/-- `Agent._denormalize_x`. -/
def denormalize_x (viewport_width : Nat) (x : Int) : Int :=
  pyInt ((x : ℚ) / (MAX_COORDINATE : ℚ) * (viewport_width : ℚ))

/-- `Agent._denormalize_y`. -/
def denormalize_y (viewport_height : Nat) (y : Int) : Int :=
  pyInt ((y : ℚ) / (MAX_COORDINATE : ℚ) * (viewport_height : ℚ))

/-- The coordinates the `click_at` branch passes to the
`click_mouse` command of the Steel session: the denormalized pair,
with no further clamping or scaling. -/
def gemClickAtCoordinates (viewport_width viewport_height : Nat)
    (x y : Int) : Int × Int :=
  (denormalize_x viewport_width x, denormalize_y viewport_height y)

/-! ## The agent loop (Claude starter)

Source: `ClaudeAgent.execute_task`,
`examples/steel-claude-computer-use-python-starter/main.py` lines
673-884.  One model response is a list of content blocks (text or
tool use); the external model transport is an oracle `turns : Nat →
List Block` giving the blocks of each successive
`client.beta.messages.create` call.  Conversation items mirror the
dicts appended to `new_items`: a text block appends one assistant
text item; a tool-use block appends an assistant tool-use item and a
user tool-result item.  The browser side effects of dispatched
actions do not influence the control flow modelled here (the
non-raising path). -/

/-- One content block of a model response. -/
inductive Block where
  | text (t : String)
  | toolUse
deriving DecidableEq

/-- One item of `new_items`. -/
inductive Item where
  | assistantText (t : String)
  | assistantToolUse
  | userToolResult
deriving DecidableEq

/-- The loop state of `execute_task`. -/
structure LoopState where
  newItems : List Item
  lastMsgs : List String
  noActions : Nat
  iterations : Nat
  modelCalls : Nat
  stopReason : Option String
deriving DecidableEq

def initialLoopState : LoopState :=
  { newItems := [], lastMsgs := [], noActions := 0, iterations := 0,
    modelCalls := 0, stopReason := none }

/-- The text the completion check reads from the last conversation
item: for a trailing assistant item, `content[0].get("text", "")`
(the empty string for a tool-use block); for a trailing user item or
an empty history, no check happens. -/
def lastAssistantContent : List Item → Option String
  | items =>
    match items.getLast? with
    | some (Item.assistantText t) => some t
    | some Item.assistantToolUse => some ""
    | _ => none

/-- The completion and repetition check at the top of a loop
iteration (main.py lines 747-764): runs only when the last item is an
assistant message; an explicit or heuristic completion breaks with
its reason and repetition breaks with reason `repetition` (Python
prints the reason; the model stores it in `stopReason`); otherwise
the message is pushed onto `last_assistant_messages`, keeping at most
the 3 most recent. -/
def loopCheck (st : LoopState) : LoopState :=
  match lastAssistantContent st.newItems with
  | none => st
  | some content =>
    match is_task_complete content with
    | some reason => { st with stopReason := some reason }
    | none =>
      if detect_repetition st.lastMsgs content then
        { st with lastMsgs := st.lastMsgs ++ [content],
                  stopReason := some "repetition" }
      else
        let lm := st.lastMsgs ++ [content]
        { st with lastMsgs := if 3 < lm.length then lm.tail else lm }

/-- The conversation items appended for a list of response blocks: a
text block appends one assistant text message; a tool-use block
appends the assistant tool-use item and then the user tool-result
item carrying the screenshot. -/
def itemsOfBlocks (blocks : List Block) : List Item :=
  blocks.flatMap
    (fun b => match b with
      | Block.text t => [Item.assistantText t]
      | Block.toolUse => [Item.assistantToolUse, Item.userToolResult])

/-- Processing of one model response (main.py lines 786-865): append
items per block, count the model call, and track the
`consecutive_no_actions` counter, breaking after 3 action-free
iterations. -/
def processBlocks (st : LoopState) (blocks : List Block) : LoopState :=
  let items := itemsOfBlocks blocks
  let has_actions := blocks.any (fun b => b = Block.toolUse)
  let st1 := { st with newItems := st.newItems ++ items,
                       modelCalls := st.modelCalls + 1 }
  if has_actions then { st1 with noActions := 0 }
  else if 3 ≤ st1.noActions + 1 then
    { st1 with noActions := st1.noActions + 1, stopReason := some "no_actions" }
  else { st1 with noActions := st1.noActions + 1 }

/-- One pass of the `while` body: count the iteration, run the
checks, and unless they broke out, call the model and process its
blocks. -/
def loopIter (turn : List Block) (st : LoopState) : LoopState :=
  let st1 := loopCheck { st with iterations := st.iterations + 1 }
  if st1.stopReason.isSome then st1 else processBlocks st1 turn

/-- The `while iterations < max_iterations` loop: at most `fuel`
passes, stopping early once a break reason is set. -/
def runLoopAux (turns : Nat → List Block) : Nat → LoopState → LoopState
  | 0, st => st
  | fuel + 1, st =>
    if st.stopReason.isSome then st
    else runLoopAux turns fuel (loopIter (turns st.modelCalls) st)

/-- `execute_task` for a given oracle of model responses and
iteration cap, observed through the final loop state. -/
def runLoop (turns : Nat → List Block) (max_iterations : Nat) : LoopState :=
  runLoopAux turns max_iterations initialLoopState

/-! ## Claim C1: the clamping policy of the Claude starter -/

/-- Claim C1, counterexample.  The claim states that under the
clamp-only policy `validate_and_get_coordinates` never raises for an
out-of-range input and that in particular negative coordinates are
corrected, not rejected.  The code rejects the negative coordinate
`[-1, 5]` on a 1024x768 viewport with a `ValueError` instead of
clamping it. -/
theorem C1_counterexample :
    validate_and_get_coordinates 1024 768 [-1, 5] =
      Except.error "coordinate must be a tuple or list of non-negative ints" ∧
    ¬ ∃ p, validate_and_get_coordinates 1024 768 [-1, 5] = Except.ok p := by
  have h : validate_and_get_coordinates 1024 768 [-1, 5] =
      Except.error "coordinate must be a tuple or list of non-negative ints" := by
    decide
  refine ⟨h, ?_⟩
  rintro ⟨p, hp⟩
  rw [h] at hp
  exact absurd hp (by simp)

/-- Claim C1 as amended: for a pair of non-negative integer
coordinates, `validate_and_get_coordinates` never raises; it clamps
the pair into `[0, width-1] x [0, height-1]` (surfacing corrections
as a printed warning only) and leaves already-in-range pairs
untouched.  Negative or malformed coordinates, however, are rejected
with a `ValueError` before clamping (see the counterexample). -/
theorem C1_clamp_in_range (width height : Nat) (x y : Int)
    (hw : 1 ≤ width) (hh : 1 ≤ height) (hx : 0 ≤ x) (hy : 0 ≤ y) :
    validate_and_get_coordinates width height [x, y] =
      Except.ok (clamp_coordinates width height x y) ∧
    (0 ≤ (clamp_coordinates width height x y).1 ∧
      (clamp_coordinates width height x y).1 ≤ (width : Int) - 1 ∧
      0 ≤ (clamp_coordinates width height x y).2 ∧
      (clamp_coordinates width height x y).2 ≤ (height : Int) - 1) ∧
    (x ≤ (width : Int) - 1 → y ≤ (height : Int) - 1 →
      clamp_coordinates width height x y = (x, y)) := by
  refine ⟨?_, clamp_coordinates_mem width height x y hw hh, ?_⟩
  · have hall : ([x, y].all (fun i => 0 ≤ i)) = true := by
      simp [List.all_cons, hx, hy]
    simp [validate_and_get_coordinates, hall]
  · intro hxr hyr
    simp only [clamp_coordinates, Prod.mk.injEq]
    constructor <;> omega

/-- Witness for C1: the oversized pair `(5000, 5)` on a 1024x768
viewport is accepted and clamped to `(1023, 5)`. -/
theorem C1_clamp_in_range_witness :
    validate_and_get_coordinates 1024 768 [5000, 5] =
      Except.ok (clamp_coordinates 1024 768 5000 5) ∧
    (0 ≤ (clamp_coordinates 1024 768 5000 5).1 ∧
      (clamp_coordinates 1024 768 5000 5).1 ≤ (1024 : Int) - 1 ∧
      0 ≤ (clamp_coordinates 1024 768 5000 5).2 ∧
      (clamp_coordinates 1024 768 5000 5).2 ≤ (768 : Int) - 1) ∧
    ((5000 : Int) ≤ (1024 : Int) - 1 → (5 : Int) ≤ (768 : Int) - 1 →
      clamp_coordinates 1024 768 5000 5 = (5000, 5)) :=
  C1_clamp_in_range 1024 768 5000 5 (by decide) (by decide) (by decide) (by decide)

/-! ## Claim C4: key-combo splitting and normalization -/

/-- Claim C4, counterexample.  The claim states that splitting
`"ctrl+shift+a"` on `+` and normalizing each part yields
`["Control", "Shift", "A"]`.  In the Gemini starter the main key `a`
is returned unchanged by `_normalize_key` (the synonym table is hit
with the uppercased name but unknown names return the stripped
original), so the result is `["Control", "Shift", "a"]`; the
corresponding `key` branch of the Claude starter likewise produces
`"Control+Shift+a"`. -/
theorem C4_counterexample :
    geminiKeyCombination "ctrl+shift+a" ≠ ["Control", "Shift", "A"] ∧
    geminiKeyCombination "ctrl+shift+a" = ["Control", "Shift", "a"] := by
  constructor <;> decide

/-- Claim C4 as amended: splitting `"ctrl+shift+a"` on `+` and
normalizing each part yields `["Control", "Shift", "a"]` — modifiers
are canonicalized, the unknown lowercase main key passes through
unchanged, and the order of the parts is preserved so the modifiers
precede the main key.  The Claude starter renders the same combo as
the Playwright string `"Control+Shift+a"`. -/
theorem C4_combo_normalization :
    geminiKeyCombination "ctrl+shift+a" =
      [normalizeKey "ctrl", normalizeKey "shift", normalizeKey "a"] ∧
    normalizeKey "ctrl" = "Control" ∧
    normalizeKey "shift" = "Shift" ∧
    normalizeKey "a" = "a" ∧
    claudePressKeyString "ctrl+shift+a" = "Control+Shift+a" := by
  refine ⟨by decide, by decide, by decide, by decide, by decide⟩

/-! ## Claim C6: text chunking of the type action -/

theorem foldl_append_mk (ls : List (List Char)) :
    ∀ (init : String),
      List.foldl (fun r s => r ++ s) init (ls.map (fun l => String.mk l)) =
        String.mk (init.toList ++ ls.flatten) := by
  induction ls with
  | nil =>
    intro init
    simp only [List.map_nil, List.foldl_nil, List.flatten_nil, List.append_nil]
    rfl
  | cons h tl ih =>
    intro init
    simp only [List.map_cons, List.foldl_cons, List.flatten_cons]
    rw [ih]
    show String.mk ((init ++ String.mk h).toList ++ tl.flatten) = _
    have : (init ++ String.mk h).toList = init.toList ++ h := rfl
    rw [this, List.append_assoc]

theorem join_chunks (s : String) (chunk_size : Nat) (hcs : 0 < chunk_size) :
    String.join (chunks s chunk_size) = s := by
  show List.foldl (fun r s => r ++ s) "" _ = s
  rw [chunks, foldl_append_mk, chunksList_flatten chunk_size hcs]
  rfl

/-- Claim C6: the `type` action dispatches the text in consecutive
chunks of at most `TYPING_GROUP_SIZE = 50` characters, in order, each
followed by a small sleep; the chunks concatenate back to the
original text, and a 120-character text yields exactly the chunk
lengths `[50, 50, 20]`. -/
theorem C6_type_chunking (width height : Nat) (lp : Option (Int × Int)) (t : String) :
    execute_computer_action width height lp "type" { text := some t } =
      Except.ok
        ((chunks t TYPING_GROUP_SIZE).flatMap
          (fun chunk => [Event.typeChunk chunk TYPING_DELAY_MS,
            Event.sleep ((1 : ℚ) / 100)]) ++ [Event.screenshotTaken], lp) ∧
    String.join (chunks t TYPING_GROUP_SIZE) = t ∧
    (∀ c ∈ chunks t TYPING_GROUP_SIZE, c.length ≤ TYPING_GROUP_SIZE) ∧
    (chunks (String.mk (List.replicate 120 'x')) TYPING_GROUP_SIZE).map
      String.length = [50, 50, 20] := by
  refine ⟨rfl, join_chunks t TYPING_GROUP_SIZE (by decide), ?_, by decide⟩
  intro c hc
  simp only [chunks, List.mem_map] at hc
  obtain ⟨l, hl, rfl⟩ := hc
  exact chunksList_short TYPING_GROUP_SIZE _ l hl

/-! ## Claim C5: click dispatch positions and click counts -/

/-- Claim C5: a click-family action with no coordinate argument is
dispatched at the last pointer position when one exists and at the
viewport center `(width / 2, height / 2)` otherwise; `double_click`
issues a 2-count click and `triple_click` three 1-count clicks of the
same (left) button; concretely, `double_click` with no coordinate and
no prior pointer position on a 1024x768 viewport clicks twice at
`(512, 384)`. -/
theorem C5_click_dispatch (width height : Nat) (lp : Option (Int × Int)) :
    (execute_computer_action width height lp "left_click" {} =
      Except.ok ([Event.click (lp.getD (((width / 2 : Nat) : Int), ((height / 2 : Nat) : Int))).1
        (lp.getD (((width / 2 : Nat) : Int), ((height / 2 : Nat) : Int))).2 "left" 1,
        Event.screenshotTaken], lp)) ∧
    (execute_computer_action width height lp "right_click" {} =
      Except.ok ([Event.click (lp.getD (((width / 2 : Nat) : Int), ((height / 2 : Nat) : Int))).1
        (lp.getD (((width / 2 : Nat) : Int), ((height / 2 : Nat) : Int))).2 "right" 1,
        Event.screenshotTaken], lp)) ∧
    (execute_computer_action width height lp "middle_click" {} =
      Except.ok ([Event.click (lp.getD (((width / 2 : Nat) : Int), ((height / 2 : Nat) : Int))).1
        (lp.getD (((width / 2 : Nat) : Int), ((height / 2 : Nat) : Int))).2 "middle" 1,
        Event.screenshotTaken], lp)) ∧
    (execute_computer_action width height lp "double_click" {} =
      Except.ok ([Event.click (lp.getD (((width / 2 : Nat) : Int), ((height / 2 : Nat) : Int))).1
        (lp.getD (((width / 2 : Nat) : Int), ((height / 2 : Nat) : Int))).2 "left" 2,
        Event.screenshotTaken], lp)) ∧
    (execute_computer_action width height lp "triple_click" {} =
      Except.ok ([Event.click (lp.getD (((width / 2 : Nat) : Int), ((height / 2 : Nat) : Int))).1
        (lp.getD (((width / 2 : Nat) : Int), ((height / 2 : Nat) : Int))).2 "left" 1,
        Event.click (lp.getD (((width / 2 : Nat) : Int), ((height / 2 : Nat) : Int))).1
        (lp.getD (((width / 2 : Nat) : Int), ((height / 2 : Nat) : Int))).2 "left" 1,
        Event.click (lp.getD (((width / 2 : Nat) : Int), ((height / 2 : Nat) : Int))).1
        (lp.getD (((width / 2 : Nat) : Int), ((height / 2 : Nat) : Int))).2 "left" 1,
        Event.screenshotTaken], lp)) ∧
    execute_computer_action 1024 768 none "double_click" {} =
      Except.ok ([Event.click 512 384 "left" 2, Event.screenshotTaken], none) := by
  rcases lp with _ | ⟨px, py⟩ <;>
    exact ⟨rfl, rfl, rfl, rfl, rfl, by decide⟩

/-! ## Claim C7: duration validation of hold_key and wait -/

/-- The shape of an `Except`: true exactly on a raised error. -/
def isErr {α : Type} : Except String α → Bool
  | Except.error _ => true
  | Except.ok _ => false

theorem wait_branch (width height : Nat) (lp : Option (Int × Int)) (a : Args) :
    execute_computer_action width height lp "wait" a =
      match a.duration with
      | none => Except.error "duration must be a number"
      | some d =>
        if d < 0 then Except.error "duration must be non-negative"
        else if 100 < d then Except.error "duration is too long"
        else Except.ok ([Event.sleep d, Event.screenshotTaken], lp) := rfl

theorem hold_key_branch (width height : Nat) (lp : Option (Int × Int)) (a : Args) :
    execute_computer_action width height lp "hold_key" a =
      match a.duration with
      | none => Except.error "duration must be a number"
      | some d =>
        if d < 0 then Except.error "duration must be non-negative"
        else if 100 < d then Except.error "duration is too long"
        else
          match a.text with
          | none => Except.error "text is required for hold_key"
          | some t =>
            Except.ok ([Event.keyDown (cuaLookup t), Event.sleep d,
              Event.keyUp (cuaLookup t), Event.screenshotTaken], lp) := rfl

/-- Claim C7, counterexample.  The claim states a `hold_key` or `wait`
action raises exactly when the duration is missing, negative, or
above 100.  A `hold_key` action with the in-range duration `5` but
no `text` argument also raises. -/
theorem C7_counterexample :
    execute_computer_action 1024 768 none "hold_key" { duration := some 5 } =
      Except.error "text is required for hold_key" ∧
    ¬ ((5 : ℚ) < 0) ∧ ¬ ((100 : ℚ) < 5) := by
  refine ⟨by decide, by norm_num, by norm_num⟩

/-- Claim C7 as amended: a `hold_key` or `wait` action raises a
validation error exactly when the duration is missing (`None` or not
a number), negative, or above the hard ceiling of 100 seconds — or
when the action is `hold_key` and `text` is missing.  In-range
durations are never clamped: the emitted sleep carries the duration
exactly as given. -/
theorem C7_duration_validation (width height : Nat) (lp : Option (Int × Int))
    (act : String) (a : Args) (hact : act = "hold_key" ∨ act = "wait") :
    (isErr (execute_computer_action width height lp act a) = true ↔
      (a.duration = none ∨
        (∃ d, a.duration = some d ∧ (d < 0 ∨ 100 < d)) ∨
        (act = "hold_key" ∧ a.text = none))) ∧
    (∀ d, a.duration = some d → 0 ≤ d → d ≤ 100 →
      (act = "wait" →
        execute_computer_action width height lp act a =
          Except.ok ([Event.sleep d, Event.screenshotTaken], lp)) ∧
      (act = "hold_key" → ∀ t, a.text = some t →
        execute_computer_action width height lp act a =
          Except.ok ([Event.keyDown (cuaLookup t), Event.sleep d,
            Event.keyUp (cuaLookup t), Event.screenshotTaken], lp))) := by
  have wait_none : a.duration = none →
      execute_computer_action width height lp "wait" a =
        Except.error "duration must be a number" := by
    intro hd
    rw [wait_branch, hd]
  have wait_some : ∀ d, a.duration = some d →
      execute_computer_action width height lp "wait" a =
        (if d < 0 then Except.error "duration must be non-negative"
         else if 100 < d then Except.error "duration is too long"
         else Except.ok ([Event.sleep d, Event.screenshotTaken], lp)) := by
    intro d hd
    rw [wait_branch, hd]
  have hk_none : a.duration = none →
      execute_computer_action width height lp "hold_key" a =
        Except.error "duration must be a number" := by
    intro hd
    rw [hold_key_branch, hd]
  have hk_some : ∀ d, a.duration = some d →
      execute_computer_action width height lp "hold_key" a =
        (if d < 0 then Except.error "duration must be non-negative"
         else if 100 < d then Except.error "duration is too long"
         else
           match a.text with
           | none => Except.error "text is required for hold_key"
           | some t =>
             Except.ok ([Event.keyDown (cuaLookup t), Event.sleep d,
               Event.keyUp (cuaLookup t), Event.screenshotTaken], lp)) := by
    intro d hd
    rw [hold_key_branch, hd]
  rcases hact with hact | hact <;> subst hact
  · constructor
    · rcases hd : a.duration with _ | d
      · rw [hk_none hd]
        simp [isErr, hd]
      · rw [hk_some d hd]
        rcases ht : a.text with _ | t <;>
          split_ifs with h1 h2 <;>
          simp only [isErr, hd, ht, Option.some.injEq, reduceCtorEq,
            exists_eq_left, false_or, true_and, or_false, iff_true,
            true_iff, false_iff, and_true] <;>
          first
          | exact Or.inr trivial
          | exact ⟨d, rfl, Or.inl h1⟩
          | exact ⟨d, rfl, Or.inr h2⟩
          | exact Or.inl ⟨d, rfl, Or.inl h1⟩
          | exact Or.inl ⟨d, rfl, Or.inr h2⟩
          | (rintro ⟨d1, rfl, hbad | hbad⟩ <;> linarith)
    · intro d hd h0 h100
      refine ⟨by intro h; exact absurd h (by decide), ?_⟩
      intro _ t ht
      rw [hk_some d hd, if_neg (not_lt.mpr h0), if_neg (not_lt.mpr h100), ht]
  · constructor
    · rcases hd : a.duration with _ | d
      · rw [wait_none hd]
        simp [isErr, hd]
      · rw [wait_some d hd]
        split_ifs with h1 h2 <;>
          simp only [isErr, hd, Option.some.injEq, reduceCtorEq,
            exists_eq_left, false_or, true_and, or_false, iff_true,
            true_iff, false_iff, false_and, and_true] <;>
          first
          | exact ⟨d, rfl, Or.inl h1⟩
          | exact ⟨d, rfl, Or.inr h2⟩
          | exact Or.inl ⟨d, rfl, Or.inl h1⟩
          | exact Or.inl ⟨d, rfl, Or.inr h2⟩
          | (rintro ⟨d1, rfl, hbad | hbad⟩ <;> linarith)
          | (rintro (⟨d1, rfl, hbad | hbad⟩ | ⟨hstr, hother⟩) <;>
               first
               | linarith
               | exact absurd hstr (by decide))
    · intro d hd h0 h100
      refine ⟨?_, by intro h; exact absurd h (by decide)⟩
      intro _
      rw [wait_some d hd, if_neg (not_lt.mpr h0), if_neg (not_lt.mpr h100)]

/-- Witness for C7: a `wait` with duration 5 on a 1024x768 viewport,
exercising both the error characterization and the as-given
execution. -/
theorem C7_duration_validation_witness :
    (isErr (execute_computer_action 1024 768 none "wait"
        { duration := some 5 }) = true ↔
      ((Args.duration { duration := some 5 }) = none ∨
        (∃ d, (Args.duration { duration := some 5 }) = some d ∧ (d < 0 ∨ 100 < d)) ∨
        ("wait" = "hold_key" ∧ (Args.text { duration := some 5 }) = none))) ∧
    (∀ d, (Args.duration { duration := some 5 }) = some d → 0 ≤ d → d ≤ 100 →
      (("wait" : String) = "wait" →
        execute_computer_action 1024 768 none "wait" { duration := some 5 } =
          Except.ok ([Event.sleep d, Event.screenshotTaken], none)) ∧
      (("wait" : String) = "hold_key" → ∀ t, (Args.text { duration := some 5 }) = some t →
        execute_computer_action 1024 768 none "wait" { duration := some 5 } =
          Except.ok ([Event.keyDown (cuaLookup t), Event.sleep d,
            Event.keyUp (cuaLookup t), Event.screenshotTaken], none))) :=
  C7_duration_validation 1024 768 none "wait" { duration := some 5 } (Or.inr rfl)

/-! ## Claim C9: denormalization in the Gemini starter -/

theorem pyInt_of_nonneg (q : ℚ) (h : 0 ≤ q) : pyInt q = Int.floor q := by
  unfold pyInt
  rw [if_neg (not_lt.mpr h)]

theorem denormalize_x_floor (viewport_width : Nat) (x : Int) (hx : 0 ≤ x) :
    denormalize_x viewport_width x =
      Int.floor (((x : ℚ) * (viewport_width : ℚ)) / 1000) := by
  unfold denormalize_x MAX_COORDINATE
  have harg : ((x : ℚ) / ((1000 : Nat) : ℚ) * (viewport_width : ℚ)) =
      ((x : ℚ) * (viewport_width : ℚ)) / 1000 := by
    push_cast
    ring
  rw [harg, pyInt_of_nonneg]
  apply div_nonneg
  · apply mul_nonneg
    · exact_mod_cast hx
    · positivity
  · norm_num

theorem denormalize_x_le (viewport_width : Nat) (x : Int)
    (hx : 0 ≤ x) (hx1000 : x ≤ 1000) :
    denormalize_x viewport_width x ≤ (viewport_width : Int) := by
  rw [denormalize_x_floor viewport_width x hx]
  have h1 : ((x : ℚ) * (viewport_width : ℚ)) / 1000 ≤ (viewport_width : ℚ) := by
    rw [div_le_iff₀ (by norm_num : (0 : ℚ) < 1000)]
    have : (x : ℚ) ≤ 1000 := by exact_mod_cast hx1000
    nlinarith [Nat.cast_nonneg (α := ℚ) viewport_width]
  calc Int.floor (((x : ℚ) * (viewport_width : ℚ)) / 1000)
      ≤ Int.floor ((viewport_width : ℚ)) := Int.floor_le_floor h1
    _ = (viewport_width : Int) := by
        rw [show ((viewport_width : ℚ)) = (((viewport_width : Int) : ℚ)) from by push_cast; ring,
          Int.floor_intCast]

/-- Claim C9: for `0 ≤ x ≤ 1000`, `_denormalize_x` computes
`floor(x * viewport_width / 1000)`, is monotone, and lands in
`[0, viewport_width]` inclusive; the maximal normalized value 1000
maps to `viewport_width` itself — one past the last valid column
`viewport_width - 1` — and `click_at` dispatches the denormalized
pair without any subsequent clamping (the `_denormalize_y` side is
symmetric with the viewport height). -/
theorem C9_denormalization (viewport_width viewport_height : Nat) (x y : Int)
    (hx : 0 ≤ x) (hx1000 : x ≤ 1000) (hy : 0 ≤ y) (hy1000 : y ≤ 1000) :
    denormalize_x viewport_width x =
      Int.floor (((x : ℚ) * (viewport_width : ℚ)) / 1000) ∧
    (∀ x2, x ≤ x2 →
      denormalize_x viewport_width x ≤ denormalize_x viewport_width x2) ∧
    (0 ≤ denormalize_x viewport_width x ∧
      denormalize_x viewport_width x ≤ (viewport_width : Int)) ∧
    denormalize_x viewport_width 1000 = (viewport_width : Int) ∧
    denormalize_y viewport_height y =
      Int.floor (((y : ℚ) * (viewport_height : ℚ)) / 1000) ∧
    (0 ≤ denormalize_y viewport_height y ∧
      denormalize_y viewport_height y ≤ (viewport_height : Int)) ∧
    denormalize_y viewport_height 1000 = (viewport_height : Int) ∧
    gemClickAtCoordinates viewport_width viewport_height x y =
      (denormalize_x viewport_width x, denormalize_y viewport_height y) := by
  have hyx : ∀ (w : Nat) (z : Int), 0 ≤ z →
      denormalize_y w z = denormalize_x w z := by
    intro w z _
    rfl
  have hnonneg : ∀ (w : Nat) (z : Int), 0 ≤ z → 0 ≤ denormalize_x w z := by
    intro w z hz
    rw [denormalize_x_floor w z hz]
    apply Int.floor_nonneg.mpr
    apply div_nonneg
    · apply mul_nonneg
      · exact_mod_cast hz
      · positivity
    · norm_num
  have htop : ∀ (w : Nat), denormalize_x w 1000 = (w : Int) := by
    intro w
    rw [denormalize_x_floor w 1000 (by norm_num)]
    have : (((1000 : Int) : ℚ) * (w : ℚ)) / 1000 = (w : ℚ) := by
      push_cast
      ring
    rw [this, show ((w : ℚ)) = (((w : Int) : ℚ)) from by push_cast; ring,
      Int.floor_intCast]
  have hmono : ∀ x2, x ≤ x2 →
      denormalize_x viewport_width x ≤ denormalize_x viewport_width x2 := by
    intro x2 hx2
    have hx2n : 0 ≤ x2 := le_trans hx hx2
    rw [denormalize_x_floor _ _ hx, denormalize_x_floor _ _ hx2n]
    apply Int.floor_le_floor
    have hc : (x : ℚ) ≤ (x2 : ℚ) := by exact_mod_cast hx2
    have hw : (0 : ℚ) ≤ (viewport_width : ℚ) := by positivity
    exact (div_le_div_iff_of_pos_right (by norm_num : (0 : ℚ) < 1000)).mpr
      (mul_le_mul_of_nonneg_right hc hw)
  refine ⟨denormalize_x_floor _ _ hx, hmono, ⟨hnonneg _ _ hx, denormalize_x_le _ _ hx hx1000⟩,
    htop _, ?_, ?_, ?_, rfl⟩
  · rw [hyx _ _ hy]
    exact denormalize_x_floor _ _ hy
  · rw [hyx _ _ hy]
    exact ⟨hnonneg _ _ hy, denormalize_x_le _ _ hy hy1000⟩
  · rw [show denormalize_y viewport_height 1000 = denormalize_x viewport_height 1000 from rfl]
    exact htop _

/-- Witness for C9: on the starter viewport (1280x768), the
normalized maximum 1000 maps to the x pixel 1280 and the y pixel 768,
and `click_at` dispatches the denormalized pair unchanged. -/
theorem C9_denormalization_witness :
    denormalize_x 1280 1000 = (1280 : Int) ∧
    denormalize_y 768 1000 = (768 : Int) ∧
    gemClickAtCoordinates 1280 768 1000 500 =
      (denormalize_x 1280 1000, denormalize_y 768 500) := by
  have h := C9_denormalization 1280 768 1000 500
    (by decide) (by decide) (by decide) (by decide)
  exact ⟨h.2.2.2.1, h.2.2.2.2.2.2.1, h.2.2.2.2.2.2.2⟩

/-! ## Claim C10: the last-pointer-position invariant -/

/-- The invariant of `_last_mouse_position`: unset, or a pair inside
`[0, width-1] x [0, height-1]`. -/
def lpInBounds (width height : Nat) : Option (Int × Int) → Prop
  | none => True
  | some p => 0 ≤ p.1 ∧ p.1 ≤ (width : Int) - 1 ∧ 0 ≤ p.2 ∧ p.2 ≤ (height : Int) - 1

set_option maxHeartbeats 2000000 in
theorem execute_preserves_bounds (width height : Nat)
    (hw : 1 ≤ width) (hh : 1 ≤ height)
    (lp : Option (Int × Int)) (act : String) (a : Args)
    (r : List Event × Option (Int × Int))
    (hlp : lpInBounds width height lp)
    (h : execute_computer_action width height lp act a = Except.ok r) :
    lpInBounds width height r.2 := by
  have hval : ∀ (c : List Int) (x y : Int),
      validate_and_get_coordinates width height c = Except.ok (x, y) →
      lpInBounds width height (some (x, y)) := by
    intro c x y hv
    exact validate_ok_bounds width height c x y hw hh hv
  unfold execute_computer_action at h
  by_cases h1 : act = "left_mouse_down" ∨ act = "left_mouse_up"
  · rw [if_pos h1] at h
    repeat
      first
      | (exact Except.noConfusion h)
      | (cases h; exact hlp)
      | (split at h)
  · rw [if_neg h1] at h
    by_cases h2 : act = "scroll"
    · rw [if_pos h2] at h
      try dsimp only at h
      repeat
        first
        | (exact Except.noConfusion h)
        | (cases h; exact hlp)
        | (cases h; exact hval _ _ _ (by assumption))
        | (split at h)
    · rw [if_neg h2] at h
      by_cases h3 : act = "hold_key" ∨ act = "wait"
      · rw [if_pos h3] at h
        repeat
          first
          | (exact Except.noConfusion h)
          | (cases h; exact hlp)
          | (split at h)
      · rw [if_neg h3] at h
        by_cases h4 : act = "left_click" ∨ act = "right_click" ∨
            act = "double_click" ∨ act = "triple_click" ∨ act = "middle_click"
        · rw [if_pos h4] at h
          try dsimp only at h
          repeat
            first
            | (exact Except.noConfusion h)
            | (cases h; exact hlp)
            | (cases h; exact hval _ _ _ (by assumption))
            | (split at h)
        · rw [if_neg h4] at h
          by_cases h5 : act = "mouse_move" ∨ act = "left_click_drag"
          · rw [if_pos h5] at h
            repeat
              first
              | (exact Except.noConfusion h)
              | (cases h; exact hval _ _ _ (by assumption))
              | (split at h)
          · rw [if_neg h5] at h
            by_cases h6 : act = "key" ∨ act = "type"
            · rw [if_pos h6] at h
              repeat
                first
                | (exact Except.noConfusion h)
                | (cases h; exact hlp)
                | (split at h)
            · rw [if_neg h6] at h
              by_cases h7 : act = "screenshot" ∨ act = "cursor_position"
              · rw [if_pos h7] at h
                repeat
                  first
                  | (exact Except.noConfusion h)
                  | (cases h; exact hlp)
                  | (split at h)
              · rw [if_neg h7] at h
                exact Except.noConfusion h

theorem runActions_preserves_bounds (width height : Nat)
    (hw : 1 ≤ width) (hh : 1 ≤ height) :
    ∀ (calls : List (String × Args)) (lp : Option (Int × Int)),
      lpInBounds width height lp →
      lpInBounds width height (runActions width height calls lp) := by
  intro calls
  induction calls with
  | nil => intro lp hlp; exact hlp
  | cons c rest ih =>
    intro lp hlp
    show lpInBounds width height
      (runActions width height rest
        (match execute_computer_action width height lp c.1 c.2 with
         | Except.ok r => r.2
         | Except.error _ => lp))
    apply ih
    rcases hr : execute_computer_action width height lp c.1 c.2 with e | r
    · exact hlp
    · exact execute_preserves_bounds width height hw hh lp c.1 c.2 r hlp hr

/-- Claim C10: `_last_mouse_position` starts as `None`, and after any
sequence of `execute_computer_action` calls on a `width x height`
browser it is either still `None` or a pair inside
`[0, width-1] x [0, height-1]` — every assignment to it flows through
`validate_and_get_coordinates` and hence through coordinate clamping,
and a call that raises leaves it unchanged. -/
theorem C10_pointer_invariant (width height : Nat)
    (calls : List (String × Args)) (hw : 1 ≤ width) (hh : 1 ≤ height) :
    runActions width height calls none = none ∨
    ∃ x y, runActions width height calls none = some (x, y) ∧
      0 ≤ x ∧ x ≤ (width : Int) - 1 ∧ 0 ≤ y ∧ y ≤ (height : Int) - 1 := by
  have h := runActions_preserves_bounds width height hw hh calls none trivial
  rcases hr : runActions width height calls none with _ | ⟨x, y⟩
  · exact Or.inl rfl
  · rw [hr] at h
    exact Or.inr ⟨x, y, rfl, h.1, h.2.1, h.2.2.1, h.2.2.2⟩

/-- Witness for C10: a 1024x768 browser given a default-position
double click followed by a mouse move to the oversized coordinate
`(5000, 5)` ends with an in-bounds pointer position. -/
theorem C10_pointer_invariant_witness :
    runActions 1024 768
        [("double_click", {}), ("mouse_move", { coordinate := some [5000, 5] })]
        none = none ∨
    ∃ x y, runActions 1024 768
        [("double_click", {}), ("mouse_move", { coordinate := some [5000, 5] })]
        none = some (x, y) ∧
      0 ≤ x ∧ x ≤ (1024 : Int) - 1 ∧ 0 ≤ y ∧ y ≤ (768 : Int) - 1 :=
  C10_pointer_invariant 1024 768
    [("double_click", {}), ("mouse_move", { coordinate := some [5000, 5] })]
    (by decide) (by decide)

/-! ## Claim C2: the explicit completion marker -/

theorem strContains_of_prefixed (s n1 n2 : String)
    (hpre : n1.toList.isPrefixOf n2.toList = true)
    (h : strContains s n2 = true) : strContains s n1 = true := by
  unfold strContains at h ⊢
  rw [List.any_eq_true] at h ⊢
  obtain ⟨t, ht, hp⟩ := h
  refine ⟨t, ht, ?_⟩
  have h1 : n1.toList <+: n2.toList := List.isPrefixOf_iff_prefix.mp hpre
  have h2 : n2.toList <+: t := List.isPrefixOf_iff_prefix.mp hp
  exact List.isPrefixOf_iff_prefix.mpr (h1.trans h2)

/-- A state whose break reason is set is final: the remaining loop
passes return it unchanged. -/
theorem runLoopAux_stopped (turns : Nat → List Block) (fuel : Nat)
    (st : LoopState) (h : st.stopReason.isSome = true) :
    runLoopAux turns fuel st = st := by
  cases fuel with
  | zero => rfl
  | succ n =>
    unfold runLoopAux
    rw [if_pos h]

/-- Claim C2: a transcript whose latest assistant message contains
`"TASK_COMPLETED: done"` makes `is_task_complete` report completion
with the explicit-success reason (rendered by the code as the reason
string `"explicit_completion"`, checked before any heuristic pattern),
and the loop breaks there — whatever actions were dispatched before
(`st.newItems`) and whatever the model would answer next (`turn`): the
iteration counter advances, the stop reason is set, and no further
model call or state change happens, with every remaining loop pass
returning the stopped state unchanged. -/
theorem C2_explicit_marker (content : String)
    (hc : strContains content "TASK_COMPLETED: done" = true) :
    is_task_complete content = some "explicit_completion" ∧
    ∀ (st : LoopState) (turn : List Block),
      lastAssistantContent st.newItems = some content →
      st.stopReason = none →
      loopIter turn st =
        { st with iterations := st.iterations + 1,
                  stopReason := some "explicit_completion" } ∧
      ∀ (turns : Nat → List Block) (fuel : Nat),
        runLoopAux turns fuel (loopIter turn st) = loopIter turn st := by
  have hmark : strContains content markerCompleted = true := by
    apply strContains_of_prefixed content markerCompleted "TASK_COMPLETED: done"
      (by decide) hc
  have hdone : is_task_complete content = some "explicit_completion" := by
    unfold is_task_complete
    rw [if_pos hmark]
  refine ⟨hdone, ?_⟩
  intro st turn hlast hstop
  have hiter : loopIter turn st =
      { st with iterations := st.iterations + 1,
                stopReason := some "explicit_completion" } := by
    unfold loopIter loopCheck
    have hlast2 : lastAssistantContent
        ({ st with iterations := st.iterations + 1 } : LoopState).newItems =
        some content := hlast
    rw [hlast2]
    dsimp only
    rw [hdone]
    rfl
  refine ⟨hiter, ?_⟩
  intro turns fuel
  apply runLoopAux_stopped
  rw [hiter]
  rfl

/-- Witness for C2: a history that already dispatched a tool action
and then answered with the marker breaks the loop with reason
`"explicit_completion"`. -/
theorem C2_explicit_marker_witness :
    is_task_complete "TASK_COMPLETED: done" = some "explicit_completion" ∧
    loopIter [Block.toolUse]
        { newItems := [Item.assistantToolUse, Item.userToolResult,
            Item.assistantText "TASK_COMPLETED: done"],
          lastMsgs := [], noActions := 0, iterations := 3, modelCalls := 3,
          stopReason := none } =
      { newItems := [Item.assistantToolUse, Item.userToolResult,
          Item.assistantText "TASK_COMPLETED: done"],
        lastMsgs := [], noActions := 0, iterations := 4, modelCalls := 3,
        stopReason := some "explicit_completion" } := by
  have h := C2_explicit_marker "TASK_COMPLETED: done" (by decide)
  refine ⟨h.1, ?_⟩
  exact (h.2
    { newItems := [Item.assistantToolUse, Item.userToolResult,
        Item.assistantText "TASK_COMPLETED: done"],
      lastMsgs := [], noActions := 0, iterations := 3, modelCalls := 3,
      stopReason := none }
    [Block.toolUse] rfl rfl).1

/-! ## Claim C3: repetition detection -/

/-- The float comparison `similarity(...) > 0.8` of the source,
characterized over the word counts (exact over `Rat`; in particular
the degenerate both-empty case is false on both sides). -/
theorem similarity_gt_iff (s1 s2 : String) :
    ((4 : ℚ) / 5 < similarity s1 s2) ↔
      4 * max (pySplitWs (lowerStr s1)).length (pySplitWs (lowerStr s2)).length <
        5 * ((pySplitWs (lowerStr s1)).filter
          (fun word => (pySplitWs (lowerStr s2)).contains word)).length := by
  unfold similarity
  dsimp only
  rcases Nat.eq_zero_or_pos
      (max (pySplitWs (lowerStr s1)).length (pySplitWs (lowerStr s2)).length)
    with h0 | hpos
  · have h1 := Nat.max_eq_zero_iff.mp h0
    have hc : ((pySplitWs (lowerStr s1)).filter
        (fun word => (pySplitWs (lowerStr s2)).contains word)).length = 0 := by
      have := List.length_filter_le
        (fun word => (pySplitWs (lowerStr s2)).contains word)
        (pySplitWs (lowerStr s1))
      omega
    rw [hc, h1.1, h1.2]
    norm_num
  · have hposQ : (0 : ℚ) < max (((pySplitWs (lowerStr s1)).length : ℚ))
        (((pySplitWs (lowerStr s2)).length : ℚ)) := by
      rw [← Nat.cast_max]
      exact_mod_cast hpos
    rw [div_lt_div_iff₀ (by norm_num) hposQ, ← Nat.cast_max]
    constructor
    · intro h
      have h2 : 4 * max (pySplitWs (lowerStr s1)).length
          (pySplitWs (lowerStr s2)).length <
          ((pySplitWs (lowerStr s1)).filter
            (fun word => (pySplitWs (lowerStr s2)).contains word)).length * 5 := by
        exact_mod_cast h
      omega
    · intro h
      have h2 : 4 * max (pySplitWs (lowerStr s1)).length
          (pySplitWs (lowerStr s2)).length <
          ((pySplitWs (lowerStr s1)).filter
            (fun word => (pySplitWs (lowerStr s2)).contains word)).length * 5 := by
        omega
      exact_mod_cast h2

theorem detect_repetition_true_iff (lm : List String) (msg : String) :
    detect_repetition lm msg = true ↔
      (2 ≤ lm.length ∧ ∃ prev ∈ lm, (4 : ℚ) / 5 < similarity msg prev) := by
  unfold detect_repetition
  split_ifs with hlen
  · simp only [Bool.false_eq_true, false_iff]
    rintro ⟨h2, -⟩
    omega
  · rw [List.any_eq_true]
    constructor
    · rintro ⟨prev, hmem, hgt⟩
      exact ⟨by omega, prev, hmem, of_decide_eq_true hgt⟩
    · rintro ⟨-, prev, hmem, hgt⟩
      exact ⟨prev, hmem, decide_eq_true hgt⟩

/-- Claim C3, counterexample.  The claim states the loop stops with
the repetition reason exactly when the newest assistant message is
more than 0.8-similar to EACH of the stored recent messages.  The
code uses ANY: with stored messages `["alpha beta gamma delta",
"zzz yyy xxx www"]`, the new message `"alpha beta gamma delta"` is
0.8-similar to the first but 0-similar to the second, yet
`detect_repetition` fires. -/
theorem C3_counterexample :
    detect_repetition ["alpha beta gamma delta", "zzz yyy xxx www"]
        "alpha beta gamma delta" = true ∧
    ¬ ((4 : ℚ) / 5 <
        similarity "alpha beta gamma delta" "zzz yyy xxx www") := by
  constructor
  · exact (detect_repetition_true_iff _ _).mpr
      ⟨by decide, "alpha beta gamma delta", by decide,
        (similarity_gt_iff _ _).mpr (by decide)⟩
  · rw [similarity_gt_iff]
    decide

/-- Claim C3 as amended: the repetition check fires exactly when at
least 2 previous assistant messages are stored and the newest message
has word-overlap similarity above `0.8` with AT LEAST ONE of the (up
to 3) stored messages — similarity being the number of words of the
newest message occurring in the other, divided by the larger word
count.  When it fires (and no completion fired first), the loop
breaks in that same iteration with reason `"repetition"` after
appending the message, without a further model call. -/
theorem C3_repetition (lm : List String) (msg : String) :
    (detect_repetition lm msg = true ↔
      (2 ≤ lm.length ∧ ∃ prev ∈ lm, (4 : ℚ) / 5 < similarity msg prev)) ∧
    ∀ (st : LoopState) (turn : List Block),
      lastAssistantContent st.newItems = some msg →
      st.stopReason = none →
      is_task_complete msg = none →
      detect_repetition st.lastMsgs msg = true →
      loopIter turn st =
        { st with iterations := st.iterations + 1,
                  lastMsgs := st.lastMsgs ++ [msg],
                  stopReason := some "repetition" } := by
  refine ⟨detect_repetition_true_iff lm msg, ?_⟩
  intro st turn hlast hstop hnotdone hdet
  unfold loopIter loopCheck
  have hlast2 : lastAssistantContent
      ({ st with iterations := st.iterations + 1 } : LoopState).newItems =
      some msg := hlast
  rw [hlast2]
  dsimp only
  rw [hnotdone]
  dsimp only
  rw [hdet]
  rfl

/-- Witness for C3: a state holding the two stored messages of the
counterexample and a newest identical message breaks with reason
`"repetition"`. -/
theorem C3_repetition_witness :
    loopIter [Block.toolUse]
        { newItems := [Item.assistantText "alpha beta gamma delta"],
          lastMsgs := ["alpha beta gamma delta", "zzz yyy xxx www"],
          noActions := 0, iterations := 2, modelCalls := 2,
          stopReason := none } =
      { newItems := [Item.assistantText "alpha beta gamma delta"],
        lastMsgs := ["alpha beta gamma delta", "zzz yyy xxx www",
          "alpha beta gamma delta"],
        noActions := 0, iterations := 3, modelCalls := 2,
        stopReason := some "repetition" } :=
  (C3_repetition ["alpha beta gamma delta", "zzz yyy xxx www"]
      "alpha beta gamma delta").2
    { newItems := [Item.assistantText "alpha beta gamma delta"],
      lastMsgs := ["alpha beta gamma delta", "zzz yyy xxx www"],
      noActions := 0, iterations := 2, modelCalls := 2,
      stopReason := none }
    [Block.toolUse] rfl rfl (by decide)
    ((detect_repetition_true_iff _ _).mpr
      ⟨by decide, "alpha beta gamma delta", by decide,
        (similarity_gt_iff _ _).mpr (by decide)⟩)

/-! ## Claim C8: the iteration cap -/

theorem loopCheck_none (st : LoopState)
    (hnone : lastAssistantContent st.newItems = none) : loopCheck st = st := by
  unfold loopCheck
  rw [hnone]

theorem loopCheck_push (st : LoopState) (s : String)
    (hsome : lastAssistantContent st.newItems = some s)
    (hdone : is_task_complete s = none)
    (hdet : detect_repetition st.lastMsgs s = false) :
    loopCheck st =
      { st with lastMsgs :=
          if 3 < (st.lastMsgs ++ [s]).length then (st.lastMsgs ++ [s]).tail
          else st.lastMsgs ++ [s] } := by
  unfold loopCheck
  rw [hsome]
  dsimp only
  rw [hdone]
  dsimp only
  rw [hdet]
  rfl

theorem processBlocks_actions (st : LoopState) (blocks : List Block)
    (hact : blocks.any (fun b => b = Block.toolUse) = true) :
    processBlocks st blocks =
      { st with newItems := st.newItems ++ itemsOfBlocks blocks,
                modelCalls := st.modelCalls + 1,
                noActions := 0 } := by
  unfold processBlocks
  dsimp only
  rw [hact]
  rfl

theorem itemsOfBlocks_ne_nil (blocks : List Block) (hne : blocks ≠ []) :
    itemsOfBlocks blocks ≠ [] := by
  cases blocks with
  | nil => exact absurd rfl hne
  | cons b bs =>
    cases b <;>
      simp [itemsOfBlocks]

theorem getLast?_append_ne_nil {α : Type} (l1 l2 : List α) (h : l2 ≠ []) :
    (l1 ++ l2).getLast? = l2.getLast? := by
  rw [List.getLast?_append]
  rcases hl : l2.getLast? with _ | a
  · exact absurd (List.getLast?_eq_none_iff.mp hl) h
  · rfl

/-- The text of the final block of one model response, when that
response ends with a text block.  Only this text can become the
trailing conversation item after the response is processed, so only
it is ever examined by the completion and repetition checks. -/
def lastBlockText (blocks : List Block) : Option String :=
  match blocks.getLast? with
  | some (Block.text t) => some t
  | _ => none

/-- A trailing assistant message of freshly appended items carries
exactly the text of the final block of the processed response (a
response ending in a tool use leaves a user tool-result item last, so
no check runs). -/
theorem lastAssistantContent_after (old : List Item) (blocks : List Block)
    (hne : blocks ≠ []) (s : String)
    (h : lastAssistantContent (old ++ itemsOfBlocks blocks) = some s) :
    lastBlockText blocks = some s := by
  induction blocks using List.reverseRecOn with
  | nil => exact absurd rfl hne
  | append_singleton bs b ih =>
    have hsplit : itemsOfBlocks (bs ++ [b]) =
        itemsOfBlocks bs ++ itemsOfBlocks [b] := by
      unfold itemsOfBlocks
      rw [List.flatMap_append]
    rw [hsplit, ← List.append_assoc] at h
    cases b with
    | text t =>
      have hlast : ((old ++ itemsOfBlocks bs) ++ itemsOfBlocks [Block.text t]).getLast? =
          some (Item.assistantText t) := by
        rw [show itemsOfBlocks [Block.text t] = [Item.assistantText t] from rfl]
        rw [getLast?_append_ne_nil _ _ (by simp)]
        rfl
      unfold lastAssistantContent at h
      dsimp only at h
      rw [hlast] at h
      have ht2 : t = s := Option.some.inj h
      subst ht2
      unfold lastBlockText
      rw [getLast?_append_ne_nil _ _ (by simp)]
      rfl
    | toolUse =>
      have hlast : ((old ++ itemsOfBlocks bs) ++ itemsOfBlocks [Block.toolUse]).getLast? =
          some Item.userToolResult := by
        rw [show itemsOfBlocks [Block.toolUse] =
          [Item.assistantToolUse, Item.userToolResult] from rfl]
        rw [getLast?_append_ne_nil _ _ (by simp)]
        rfl
      unfold lastAssistantContent at h
      dsimp only at h
      rw [hlast] at h
      exact absurd h (by simp)

/-- The invariant carried through a run in which the model always
acts and never completes or repeats: no stop reason, a reset
no-action counter, every stored assistant message is the turn-final
text of a turn processed strictly before the most recent one, and a
trailing assistant message is the turn-final text of the most
recently processed turn. -/
def LoopInv (turns : Nat → List Block) (st : LoopState) : Prop :=
  st.stopReason = none ∧ st.noActions = 0 ∧
  (∀ s ∈ st.lastMsgs, ∃ i, i + 1 < st.modelCalls ∧ lastBlockText (turns i) = some s) ∧
  (∀ s, lastAssistantContent st.newItems = some s →
    1 ≤ st.modelCalls ∧ lastBlockText (turns (st.modelCalls - 1)) = some s)

theorem loopIter_cap_step (turns : Nat → List Block)
    (hact : ∀ i, (turns i).any (fun b => b = Block.toolUse) = true)
    (hdone : ∀ i t, lastBlockText (turns i) = some t → is_task_complete t = none)
    (hsim : ∀ i j ti tj, i < j → lastBlockText (turns i) = some ti →
      lastBlockText (turns j) = some tj → ¬ ((4 : ℚ) / 5 < similarity tj ti))
    (st : LoopState) (hinv : LoopInv turns st) :
    LoopInv turns (loopIter (turns st.modelCalls) st) ∧
    (loopIter (turns st.modelCalls) st).modelCalls = st.modelCalls + 1 ∧
    (loopIter (turns st.modelCalls) st).iterations = st.iterations + 1 := by
  obtain ⟨hstop, hnoact, hlm, hlast⟩ := hinv
  have hne : turns st.modelCalls ≠ [] := by
    intro hemp
    have := hact st.modelCalls
    rw [hemp] at this
    exact absurd this (by decide)
  unfold loopIter
  have hchk : ∃ lm2, loopCheck { st with iterations := st.iterations + 1 } =
      { st with iterations := st.iterations + 1, lastMsgs := lm2 } ∧
      (∀ s ∈ lm2, ∃ i, i + 1 < st.modelCalls + 1 ∧
        lastBlockText (turns i) = some s) := by
    rcases hc : lastAssistantContent st.newItems with _ | s
    · refine ⟨st.lastMsgs, ?_, ?_⟩
      · exact loopCheck_none { st with iterations := st.iterations + 1 } hc
      · intro x hx
        obtain ⟨i, hi, hb⟩ := hlm x hx
        exact ⟨i, by omega, hb⟩
    · obtain ⟨hmc1, hsrc⟩ := hlast s hc
      have hdet : detect_repetition st.lastMsgs s = false := by
        rw [← Bool.not_eq_true, detect_repetition_true_iff]
        rintro ⟨-, prev, hmem, hgt⟩
        obtain ⟨i, hi, hbi⟩ := hlm prev hmem
        exact hsim i (st.modelCalls - 1) prev s (by omega) hbi hsrc hgt
      refine ⟨if 3 < (st.lastMsgs ++ [s]).length then (st.lastMsgs ++ [s]).tail
        else st.lastMsgs ++ [s], ?_, ?_⟩
      · exact loopCheck_push _ s hc (hdone (st.modelCalls - 1) s hsrc) hdet
      · have hall : ∀ x ∈ st.lastMsgs ++ [s],
            ∃ i, i + 1 < st.modelCalls + 1 ∧ lastBlockText (turns i) = some x := by
          intro x hx
          rcases List.mem_append.mp hx with hx | hx
          · obtain ⟨i, hi, hb⟩ := hlm x hx
            exact ⟨i, by omega, hb⟩
          · rw [List.mem_singleton.mp hx]
            exact ⟨st.modelCalls - 1, by omega, hsrc⟩
        split_ifs with hlen
        · intro x hx
          exact hall x (List.mem_of_mem_tail hx)
        · exact hall
  obtain ⟨lm2, hchk, hlm2⟩ := hchk
  rw [hchk]
  dsimp only
  split_ifs with hsome
  · rw [hstop] at hsome
    exact absurd hsome (by simp)
  · rw [processBlocks_actions _ _ (hact st.modelCalls)]
    refine ⟨⟨hstop, rfl, hlm2, ?_⟩, rfl, rfl⟩
    intro s hs
    have hsrc := lastAssistantContent_after _ _ hne s hs
    refine ⟨?_, ?_⟩
    · show 1 ≤ st.modelCalls + 1
      omega
    · show lastBlockText (turns (st.modelCalls + 1 - 1)) = some s
      rw [show st.modelCalls + 1 - 1 = st.modelCalls from by omega]
      exact hsrc

theorem runLoopAux_cap (turns : Nat → List Block)
    (hact : ∀ i, (turns i).any (fun b => b = Block.toolUse) = true)
    (hdone : ∀ i t, lastBlockText (turns i) = some t → is_task_complete t = none)
    (hsim : ∀ i j ti tj, i < j → lastBlockText (turns i) = some ti →
      lastBlockText (turns j) = some tj → ¬ ((4 : ℚ) / 5 < similarity tj ti)) :
    ∀ (fuel : Nat) (st : LoopState), LoopInv turns st →
      (runLoopAux turns fuel st).modelCalls = st.modelCalls + fuel ∧
      (runLoopAux turns fuel st).iterations = st.iterations + fuel ∧
      (runLoopAux turns fuel st).stopReason = none := by
  intro fuel
  induction fuel with
  | zero =>
    intro st hinv
    exact ⟨rfl, rfl, hinv.1⟩
  | succ n ih =>
    intro st hinv
    unfold runLoopAux
    rw [if_neg (by rw [hinv.1]; exact Bool.false_ne_true ∘ fun h => h ▸ rfl)]
    obtain ⟨hinv2, hmc, hit⟩ :=
      loopIter_cap_step turns hact hdone hsim st hinv
    obtain ⟨h1, h2, h3⟩ := ih (loopIter (turns st.modelCalls) st) hinv2
    refine ⟨?_, ?_, h3⟩
    · rw [h1, hmc]
      omega
    · rw [h2, hit]
      omega

/-- Claim C8: when the model emits at least one tool action on every
turn, no turn-final assistant text triggers a completion or failure
verdict of `is_task_complete`, and the turn-final texts of any two
distinct turns have word-overlap similarity at most 0.8 — i.e. the
model never emits a completion marker, never matches a heuristic
pattern, and never repeats — `execute_task` performs exactly
`max_iterations` model turns and stops with no break reason set: the
cap is reached, not an early exit.  Only turn-final texts are
constrained because only they ever become the trailing conversation
item the checks read; texts followed by a tool use in the same turn
are never examined, and the checked message is always compared
against messages stored from strictly earlier turns, never against
itself. -/
theorem C8_iteration_cap (turns : Nat → List Block) (max_iterations : Nat)
    (hact : ∀ i, (turns i).any (fun b => b = Block.toolUse) = true)
    (hdone : ∀ i t, lastBlockText (turns i) = some t → is_task_complete t = none)
    (hsim : ∀ i j ti tj, i < j → lastBlockText (turns i) = some ti →
      lastBlockText (turns j) = some tj → ¬ ((4 : ℚ) / 5 < similarity tj ti)) :
    (runLoop turns max_iterations).modelCalls = max_iterations ∧
    (runLoop turns max_iterations).iterations = max_iterations ∧
    (runLoop turns max_iterations).stopReason = none := by
  have hinv : LoopInv turns initialLoopState := by
    refine ⟨rfl, rfl, by intro s hs; exact absurd hs (List.not_mem_nil s), ?_⟩
    intro s hs
    exact Option.noConfusion hs
  obtain ⟨h1, h2, h3⟩ := runLoopAux_cap turns hact hdone hsim max_iterations
    initialLoopState hinv
  unfold runLoop
  refine ⟨?_, ?_, h3⟩
  · rw [h1]
    show 0 + max_iterations = max_iterations
    omega
  · rw [h2]
    show 0 + max_iterations = max_iterations
    omega

/-- Witness for C8: a model that answers with one tool action and no
trailing text on every turn runs for exactly 3 of 3 allowed
iterations. -/
theorem C8_iteration_cap_witness :
    (runLoop (fun _ => [Block.toolUse]) 3).modelCalls = 3 ∧
    (runLoop (fun _ => [Block.toolUse]) 3).iterations = 3 ∧
    (runLoop (fun _ => [Block.toolUse]) 3).stopReason = none :=
  C8_iteration_cap (fun _ => [Block.toolUse]) 3 (fun _ => rfl)
    (fun _ _ ht => Option.noConfusion ht)
    (fun _ _ _ _ _ hti _ => Option.noConfusion hti)

end Cookbook
